import Mathlib

/-!
Verification development for `batchflow/monitor.py`.

The module is embedded shallowly: machine reals (Python floats used only as
wall-clock times and metric readings) are modelled as rationals `ℚ`, the
mutable monitor object as an explicit `MonitorState` record, and the wall
clock as explicit inputs to each operation.  Fallible operations (places
where the Python code raises) return a success flag or `Option`.
-/

namespace Monitor

/-- Embeds `np.linspace(a, b, num)` over `ℚ`, matching numpy's endpoint behaviour:
`num = 0` gives the empty list, `num = 1` gives `[a]`, and for `num ≥ 2` the
`i`-th entry is `a + (b - a) * i / (num - 1)`, the last being exactly `b`.
(numpy raises `ValueError` on a negative `num`; callers guard for that.) -/
def linspace (a b : ℚ) (num : ℕ) : List ℚ :=
  if num = 1 then [a]
  else (List.range num).map (fun i : ℕ => a + (b - a) * (i : ℚ) / ((num : ℚ) - 1))

/-- The mutable attributes of a `ResourceMonitor` instance.  `shared_list` is
the cross-process shared buffer (`manager.list()`); `data`/`ticks` are the
instance's own series.  The `None` initial values of the time attributes are
modelled as `0`; every claim exercises them only after `start` has set them. -/
structure MonitorState where
  data : List ℚ
  ticks : List ℚ
  shared_list : List ℚ
  start_time : ℚ
  prev_time : ℚ
  end_time : ℚ
  running : Bool
  deriving Repr, DecidableEq

/-- A freshly constructed `ResourceMonitor` (`__init__`). -/
def initState : MonitorState :=
  { data := [], ticks := [], shared_list := []
    start_time := 0, prev_time := 0, end_time := 0, running := false }

/-- Embeds `ResourceMonitor.start`: sets `running`, allocates a fresh (empty) shared
buffer, records `start_time` and sets `prev_time` to it.  Launching the
sampler process is modelled separately (`samplerAppend` / `endless_repeat`). -/
def start (σ : MonitorState) (start_time : ℚ) : MonitorState :=
  { σ with running := true, shared_list := []
           start_time := start_time, prev_time := start_time }

/-- The background sampler appending its outputs to the shared buffer while
the controller is not looking (`shared_list.append(function(**kwargs))`). -/
def samplerAppend (σ : MonitorState) (xs : List ℚ) : MonitorState :=
  { σ with shared_list := σ.shared_list ++ xs }

/-- Embeds `ResourceMonitor.stop`: signals the sampler and clears `running`. -/
def stop (σ : MonitorState) : MonitorState :=
  { σ with running := false }

/-- The environment of one `fetch` call: the value the synchronous extra call
of `self.function` returns, and the three successive wall-clock readings
(`end_time`, `tick`, and the final `time.time()` stored into `prev_time`). -/
structure FetchEnv where
  point : ℚ
  end_time : ℚ
  tick : ℚ
  new_prev : ℚ
  deriving Repr, DecidableEq

/-- Embeds `ResourceMonitor.fetch`, line by line.  Returns the new state and a
success flag: when the shared-buffer copy is shorter than the current `data`
(possible after a `stop`/`start` cycle, since `start` empties the buffer),
`np.linspace` receives a negative `num` and raises `ValueError`; the
mutations already performed before that line (`self.data = self.shared_list[:]`
and `self.end_time = time.time()`) persist, the rest do not. -/
def fetch (σ : MonitorState) (env : FetchEnv) : MonitorState × Bool :=
  let n := σ.data.length
  let copy := σ.shared_list
  if copy.length < n then
    ({ σ with data := copy, end_time := env.end_time }, false)
  else
    ({ σ with
        data := copy ++ [env.point]
        shared_list := σ.shared_list ++ [env.point]
        ticks := σ.ticks ++ linspace σ.prev_time env.end_time (copy.length - n)
                   ++ [env.tick]
        end_time := env.end_time
        prev_time := env.new_prev }, true)

/-- Length of `linspace a b k` is `k`. -/
theorem linspace_length (a b : ℚ) (k : ℕ) : (linspace a b k).length = k := by
  unfold linspace
  split
  · simp_all
  · rw [List.length_map, List.length_range]

/-- Every entry of `linspace a b k` lies in `[a, b]` when `a ≤ b`. -/
theorem linspace_mem_bounds (a b : ℚ) (k : ℕ) (hab : a ≤ b) :
    ∀ x ∈ linspace a b k, a ≤ x ∧ x ≤ b := by
  intro x hx
  unfold linspace at hx
  split at hx
  · simp only [List.mem_singleton] at hx
    exact ⟨le_of_eq hx.symm, hx ▸ hab⟩
  · rename_i hk1
    simp only [List.mem_map, List.mem_range] at hx
    obtain ⟨i, hik, rfl⟩ := hx
    have hk0 : k ≠ 0 := by rintro rfl; exact absurd hik (Nat.not_lt_zero i)
    have hk2 : 2 ≤ k := by omega
    have hd : (0:ℚ) < (k:ℚ) - 1 := by
      have : (2:ℚ) ≤ (k:ℚ) := by exact_mod_cast hk2
      linarith
    have hba : (0:ℚ) ≤ b - a := by linarith
    have hi : (i:ℚ) ≤ (k:ℚ) - 1 := by
      have : (i:ℚ) + 1 ≤ (k:ℚ) := by exact_mod_cast hik
      linarith
    have hnum : (0:ℚ) ≤ (b - a) * (i:ℚ) := by positivity
    constructor
    · have : (0:ℚ) ≤ (b - a) * (i:ℚ) / ((k:ℚ) - 1) := div_nonneg hnum (le_of_lt hd)
      linarith
    · have h1 : (b - a) * (i:ℚ) ≤ (b - a) * ((k:ℚ) - 1) :=
        mul_le_mul_of_nonneg_left hi hba
      have h2 : (b - a) * (i:ℚ) / ((k:ℚ) - 1) ≤ b - a := by
        rw [div_le_iff₀ hd]; exact h1
      linarith

/-- Entries of `linspace a b k` are non-decreasing when `a ≤ b`. -/
theorem linspace_sorted (a b : ℚ) (k : ℕ) (hab : a ≤ b) :
    (linspace a b k).Pairwise (· ≤ ·) := by
  unfold linspace
  split
  · simp
  · rename_i hk1
    rw [List.pairwise_map]
    refine List.Pairwise.imp_of_mem ?_ (List.pairwise_lt_range k)
    intro i j hi hj hij
    simp only [List.mem_range] at hi hj
    have hk2 : 2 ≤ k := by omega
    have hd : (0:ℚ) < (k:ℚ) - 1 := by
      have : (2:ℚ) ≤ (k:ℚ) := by exact_mod_cast hk2
      linarith
    have hba : (0:ℚ) ≤ b - a := by linarith
    have hij' : (i:ℚ) ≤ (j:ℚ) := by exact_mod_cast le_of_lt hij
    have h1 : (b - a) * (i:ℚ) ≤ (b - a) * (j:ℚ) := mul_le_mul_of_nonneg_left hij' hba
    have h2 := (div_le_div_iff_of_pos_right hd).mpr h1
    linarith

/-- C1 — For every monitor whose `data` and `ticks` have equal length before
`fetch`, after a (non-raising) `fetch` they again have equal length; `fetch`
extends `ticks` by exactly `len(copy) - len(old data)` interpolated values
plus one final tick, and sets `data` to the shared-buffer copy plus the one
appended point. -/
theorem fetch_preserves_length (σ σ' : MonitorState) (env : FetchEnv)
    (hlen : σ.data.length = σ.ticks.length)
    (hf : fetch σ env = (σ', true)) :
    σ'.data.length = σ'.ticks.length ∧
    σ'.data = σ.shared_list ++ [env.point] ∧
    σ'.ticks = σ.ticks ++ linspace σ.prev_time env.end_time
                 (σ.shared_list.length - σ.data.length) ++ [env.tick] ∧
    σ'.ticks.length = σ.ticks.length + (σ.shared_list.length - σ.data.length) + 1 := by
  unfold fetch at hf
  dsimp only at hf
  split at hf
  · exact absurd (congrArg Prod.snd hf) (by simp)
  · rename_i hge
    have hσ' : σ' = _ := (congrArg Prod.fst hf).symm
    subst hσ'
    push_neg at hge
    refine ⟨?_, rfl, rfl, ?_⟩
    · simp [List.length_append, linspace_length]
      omega
    · simp [List.length_append, linspace_length]
      omega

/-- A small concrete monitor state used to exercise the theorems: one prior
sample, one prior tick, a two-entry shared buffer. -/
def exampleState : MonitorState :=
  { data := [5], ticks := [1], shared_list := [5, 6], start_time := 0
    prev_time := 1, end_time := 0, running := true }

/-- A concrete `fetch` environment for the example state. -/
def exampleEnv : FetchEnv :=
  { point := 7, end_time := 2, tick := 3, new_prev := 4 }

/-- The state `fetch exampleState exampleEnv` produces. -/
def exampleFetched : MonitorState :=
  { data := [5, 6, 7], ticks := [1, 1, 3], shared_list := [5, 6, 7], start_time := 0
    prev_time := 4, end_time := 2, running := true }

/-- Witness for C1 at a concrete state. -/
theorem fetch_preserves_length_witness :
    exampleState.data.length = exampleState.ticks.length ∧
    fetch exampleState exampleEnv = (exampleFetched, true) ∧
    exampleFetched.data.length = exampleFetched.ticks.length := by
  have hf : fetch exampleState exampleEnv = (exampleFetched, true) := by
    simp [fetch, linspace, exampleState, exampleEnv, exampleFetched]
  exact ⟨rfl, hf, (fetch_preserves_length exampleState exampleFetched exampleEnv rfl hf).1⟩

/-- The wall clock is non-decreasing across the readings recorded by a
sequence of `fetch` calls: within each call `end_time ≤ tick ≤ new prev_time`,
and each call's `end_time` comes at or after the previous recorded time.
The first component of each step is what the sampler appended to the shared
buffer since the previous call; it carries no clock readings. -/
def envsOrdered : ℚ → List (List ℚ × FetchEnv) → Prop
  | _, [] => True
  | prev, (_, env) :: rest =>
      prev ≤ env.end_time ∧ env.end_time ≤ env.tick ∧ env.tick ≤ env.new_prev ∧
      envsOrdered env.new_prev rest

/-- A sequence of `fetch` calls on one monitor within one run, the sampler
appending `out` to the shared buffer before each call; `none` when some call
raises. -/
def runFetches : MonitorState → List (List ℚ × FetchEnv) → Option MonitorState
  | σ, [] => some σ
  | σ, (out, env) :: rest =>
      let r := fetch (samplerAppend σ out) env
      if r.2 then runFetches r.1 rest else none

/-- One successful `fetch` preserves the tick invariant: `ticks` sorted and
bounded by `prev_time`, given in-call clock monotonicity. -/
theorem fetch_ticks_step (σ σ' : MonitorState) (env : FetchEnv)
    (hsort : σ.ticks.Pairwise (· ≤ ·))
    (hbound : ∀ x ∈ σ.ticks, x ≤ σ.prev_time)
    (h1 : σ.prev_time ≤ env.end_time) (h2 : env.end_time ≤ env.tick)
    (h3 : env.tick ≤ env.new_prev)
    (hf : fetch σ env = (σ', true)) :
    σ'.ticks.Pairwise (· ≤ ·) ∧ ∀ x ∈ σ'.ticks, x ≤ σ'.prev_time := by
  unfold fetch at hf
  dsimp only at hf
  split at hf
  · exact absurd (congrArg Prod.snd hf) (by simp)
  · have hσ' : σ' = _ := (congrArg Prod.fst hf).symm
    subst hσ'
    dsimp only
    have hlin₁ := linspace_sorted σ.prev_time env.end_time
      (σ.shared_list.length - σ.data.length) h1
    have hlin₂ := linspace_mem_bounds σ.prev_time env.end_time
      (σ.shared_list.length - σ.data.length) h1
    constructor
    · refine List.pairwise_append.mpr ⟨List.pairwise_append.mpr ⟨hsort, hlin₁, ?_⟩, ?_, ?_⟩
      · intro x hx y hy
        exact le_trans (hbound x hx) (hlin₂ y hy).1
      · simp
      · intro x hx y hy
        simp only [List.mem_singleton] at hy
        subst hy
        rcases List.mem_append.mp hx with hx | hx
        · exact le_trans (hbound x hx) (le_trans h1 h2)
        · exact le_trans (hlin₂ x hx).2 h2
    · intro x hx
      rcases List.mem_append.mp hx with hx | hx
      · rcases List.mem_append.mp hx with hx | hx
        · exact le_trans (hbound x hx) (le_trans h1 (le_trans h2 h3))
        · exact le_trans (hlin₂ x hx).2 (le_trans h2 h3)
      · simp only [List.mem_singleton] at hx
        exact hx ▸ h3

/-- C4 — With a non-decreasing wall clock, any sequence of successful `fetch`
calls leaves the monitor's timestamp list `ticks` non-decreasing (and bounded
by the recorded `prev_time`). -/
theorem runFetches_ticks_sorted (σ σ' : MonitorState)
    (envs : List (List ℚ × FetchEnv))
    (hsort : σ.ticks.Pairwise (· ≤ ·))
    (hbound : ∀ x ∈ σ.ticks, x ≤ σ.prev_time)
    (hord : envsOrdered σ.prev_time envs)
    (hrun : runFetches σ envs = some σ') :
    σ'.ticks.Pairwise (· ≤ ·) ∧ ∀ x ∈ σ'.ticks, x ≤ σ'.prev_time := by
  induction envs generalizing σ with
  | nil =>
      unfold runFetches at hrun
      cases hrun
      exact ⟨hsort, hbound⟩
  | cons oenv rest ih =>
      obtain ⟨out, env⟩ := oenv
      unfold runFetches at hrun
      dsimp only at hrun
      split at hrun
      · rename_i hok
        obtain ⟨ho1, ho2, ho3, ho4⟩ := hord
        have hfeq : fetch (samplerAppend σ out) env =
            ((fetch (samplerAppend σ out) env).1, true) := by
          rw [← hok]
        have hcond : ¬ ((samplerAppend σ out).shared_list.length <
            (samplerAppend σ out).data.length) := by
          intro hlt
          have hok' := hok
          unfold fetch at hok'
          dsimp only at hok'
          rw [if_pos hlt] at hok'
          simp at hok'
        have hstep := fetch_ticks_step (samplerAppend σ out)
          (fetch (samplerAppend σ out) env).1 env hsort hbound ho1 ho2 ho3 hfeq
        have hprev : (fetch (samplerAppend σ out) env).1.prev_time = env.new_prev := by
          unfold fetch
          dsimp only
          rw [if_neg hcond]
        exact ih (fetch (samplerAppend σ out) env).1 hstep.1
          (hprev ▸ hstep.2) (hprev ▸ ho4) hrun
      · exact absurd hrun (by simp)

/-- The state two concrete `fetch` calls produce from a freshly started
monitor whose sampler wrote `[10, 11]` before the first call and `[12]`
before the second. -/
def c4Result : MonitorState :=
  { data := [10, 11, 5, 12, 6], ticks := [1, 2, 3, 4, 6]
    shared_list := [10, 11, 5, 12, 6], start_time := 1
    prev_time := 7, end_time := 5, running := true }

/-- Witness for C4 on a concrete two-fetch run. -/
theorem runFetches_ticks_sorted_witness :
    runFetches (start initState 1)
        [([10, 11], { point := 5, end_time := 2, tick := 3, new_prev := 4 }),
         ([12], { point := 6, end_time := 5, tick := 6, new_prev := 7 })] =
      some c4Result ∧
    c4Result.ticks.Pairwise (· ≤ ·) := by
  have hrun : runFetches (start initState 1)
      [([10, 11], { point := 5, end_time := 2, tick := 3, new_prev := 4 }),
       ([12], { point := 6, end_time := 5, tick := 6, new_prev := 7 })] =
      some c4Result := by
    simp [runFetches, fetch, linspace, samplerAppend, start, initState, c4Result,
      List.range_succ]
    norm_num
  refine ⟨hrun, ?_⟩
  exact (runFetches_ticks_sorted (start initState 1) c4Result _
    (by simp [start, initState]) (by simp [start, initState])
    (by norm_num [envsOrdered, start, initState]) hrun).1

/-- Specification-side drain: `fetch` as the specification describes it: copy the current shared buffer
into the instance's own series, take one additional synchronous sample,
append it to both the local series and the shared buffer, give the newly
observed samples timestamps interpolated linearly between the previous fetch
time and the time the copy was taken, then record a new `prev_time`. -/
def fetchSpec (σ : MonitorState) (env : FetchEnv) : MonitorState :=
  let copy := σ.shared_list
  let newlyObserved := copy.length - σ.data.length
  { σ with
      data := copy ++ [env.point]
      shared_list := σ.shared_list ++ [env.point]
      ticks := σ.ticks ++ linspace σ.prev_time env.end_time newlyObserved ++ [env.tick]
      end_time := env.end_time
      prev_time := env.new_prev }

/-- C5 — Whenever the shared-buffer copy is at least as long as the current
`data` (always true within one run), the code's `fetch` succeeds and performs
exactly the steps the specification describes. -/
theorem fetch_refines_spec (σ : MonitorState) (env : FetchEnv)
    (h : σ.data.length ≤ σ.shared_list.length) :
    fetch σ env = (fetchSpec σ env, true) := by
  unfold fetch fetchSpec
  dsimp only
  rw [if_neg (not_lt.mpr h)]

/-- Witness for C5 at a concrete state. -/
theorem fetch_refines_spec_witness :
    exampleState.data.length ≤ exampleState.shared_list.length ∧
    fetch exampleState exampleEnv = (fetchSpec exampleState exampleEnv, true) :=
  ⟨by decide, fetch_refines_spec exampleState exampleEnv (by decide)⟩

/-- A running monitor that was restarted while retaining two samples from an
earlier cycle, its new sampler having produced a single sample `9`. -/
def c5Restarted : MonitorState :=
  samplerAppend
    (start { data := [1, 2], ticks := [3, 4], shared_list := [1, 2]
             start_time := 0, prev_time := 5, end_time := 5, running := false } 20)
    [9]

/-- C5 counterexample — the claim quantifies over every running monitor, but
on `c5Restarted` (running, yet holding more previously fetched samples than
the one-element shared buffer) `fetch` does not perform the claimed steps: it
raises `ValueError` partway, having replaced `data` with the buffer copy and
set `end_time`, appending and interpolating nothing. -/
theorem fetch_raises_on_restarted_running :
    c5Restarted.running = true ∧
    fetch c5Restarted { point := 5, end_time := 21, tick := 22, new_prev := 23 } ≠
      (fetchSpec c5Restarted { point := 5, end_time := 21, tick := 22, new_prev := 23 },
       true) := by
  constructor
  · rfl
  · decide

/-- C3 — Evaluation at the failing input: a monitor holding `[5, 6, 7]` from
an earlier start/fetch/stop cycle is started again (which empties the shared
buffer), the new sampler appends one sample `8`, and `fetch` is called.  The
code replaces `data` with the one-element shared-buffer copy, discarding the
earlier samples, and `np.linspace` receives `num = 1 - 3 = -2`, raising
`ValueError` (the `false` flag); the claim — and the class docstring
"Preserved between multiple runs" — says the earlier entries survive. -/
theorem fetch_after_restart_discards_data :
    fetch (samplerAppend (start exampleFetched 10) [8])
        { point := 9, end_time := 11, tick := 12, new_prev := 13 } =
      ({ data := [8], ticks := [1, 1, 3], shared_list := [8], start_time := 10
         prev_time := 10, end_time := 11, running := true }, false) := by
  simp [fetch, samplerAppend, start, exampleFetched]

/-- The per-monitor environment of one scoped session: when the monitor is
started, what its sampler appends to the shared buffer before the final
drain, and the clock readings of that drain. -/
structure SessionEnv where
  session_start : ℚ
  sampler_out : List ℚ
  fenv : FetchEnv
  deriving Repr, DecidableEq

/-- The `finally` block of `monitor_resource`: for each monitor in order,
`monitor.fetch()` then `monitor.stop()`.  If a `fetch` raises, the exception
propagates at once: the failing monitor keeps its partially mutated state and
the remaining monitors are left as they were (started, never drained or
stopped); the returned flag records whether the block completed. -/
def finallyLoop : List (MonitorState × SessionEnv) → List MonitorState × Bool
  | [] => ([], true)
  | (σ, env) :: rest =>
      let σ₁ := samplerAppend σ env.sampler_out
      let r := fetch σ₁ env.fenv
      if r.2 then
        let rest' := finallyLoop rest
        (stop r.1 :: rest'.1, rest'.2)
      else
        (r.1 :: rest.map Prod.fst, false)

/-- The scoped session `monitor_resource`: every monitor is started (in
order), the wrapped block runs (`bodyRaises` says whether it raised), and the
`try/finally` runs `finallyLoop` on every exit path.  Returns the final
monitor states and whether any exception escaped the session. -/
def monitor_resource_run (entries : List (MonitorState × SessionEnv))
    (bodyRaises : Bool) : List MonitorState × Bool :=
  let started := entries.map (fun e => (start e.1 e.2.session_start, e.2))
  let r := finallyLoop started
  (r.1, bodyRaises || !r.2)

/-- C2 counterexample — a session over two monitors, the first reused from an
earlier cycle (it still holds three fetched samples) with its new sampler
having produced only one sample, the second fresh; the body returns normally.
The first monitor's drain raises `ValueError` inside the `finally` block, so
neither monitor is ever stopped: both end with `running = true`, refuting the
claim that every started monitor is drained and stopped. -/
theorem monitor_resource_leaves_running :
    ((monitor_resource_run
        [(exampleFetched,
          { session_start := 10, sampler_out := [8]
            fenv := { point := 9, end_time := 11, tick := 12, new_prev := 13 } }),
         (initState,
          { session_start := 10, sampler_out := [1]
            fenv := { point := 2, end_time := 11, tick := 12, new_prev := 13 } })]
        false).1.map MonitorState.running = [true, true]) ∧
    (monitor_resource_run
        [(exampleFetched,
          { session_start := 10, sampler_out := [8]
            fenv := { point := 9, end_time := 11, tick := 12, new_prev := 13 } }),
         (initState,
          { session_start := 10, sampler_out := [1]
            fenv := { point := 2, end_time := 11, tick := 12, new_prev := 13 } })]
        false).2 = true := by
  constructor <;>
    simp [monitor_resource_run, finallyLoop, fetch, samplerAppend, start, stop,
      exampleFetched, initState]

/-- C2 (amended) — On every exit path (body raising or not), provided no
monitor's drain raises — i.e. each monitor enters the session holding no more
previously fetched samples than its sampler appends during it, which is
always the case for freshly constructed monitors — every started monitor is
drained (its sampler output fetched) and stopped exactly once, each ends with
`running = false`, and the session raises exactly when the body did. -/
theorem monitor_resource_stops_all (entries : List (MonitorState × SessionEnv))
    (bodyRaises : Bool)
    (h : ∀ e ∈ entries, e.1.data.length ≤ e.2.sampler_out.length) :
    (monitor_resource_run entries bodyRaises).1 =
      entries.map (fun e =>
        stop (fetch (samplerAppend (start e.1 e.2.session_start) e.2.sampler_out)
                e.2.fenv).1) ∧
    (∀ σ ∈ (monitor_resource_run entries bodyRaises).1, σ.running = false) ∧
    (monitor_resource_run entries bodyRaises).2 = bodyRaises := by
  have key : ∀ l : List (MonitorState × SessionEnv),
      (∀ e ∈ l, e.1.data.length ≤ e.2.sampler_out.length) →
      finallyLoop (l.map (fun e => (start e.1 e.2.session_start, e.2))) =
        (l.map (fun e =>
          stop (fetch (samplerAppend (start e.1 e.2.session_start) e.2.sampler_out)
                  e.2.fenv).1), true) := by
    intro l
    induction l with
    | nil => intro _; rfl
    | cons e rest ih =>
        intro hl
        have he := hl e (List.mem_cons_self e rest)
        have hrest := fun x hx => hl x (List.mem_cons_of_mem e hx)
        have hok : (fetch (samplerAppend (start e.1 e.2.session_start) e.2.sampler_out)
            e.2.fenv).2 = true := by
          unfold fetch
          dsimp only
          rw [if_neg]
          simp only [samplerAppend, start]
          simpa using he
        simp only [List.map_cons, finallyLoop, hok, if_true, ih hrest]
  have hmain := key entries h
  unfold monitor_resource_run
  dsimp only
  rw [hmain]
  refine ⟨rfl, ?_, by simp⟩
  intro σ hσ
  simp only [List.mem_map] at hσ
  obtain ⟨e, _, rfl⟩ := hσ
  rfl

/-- Witness for the amended C2 on a concrete one-monitor session whose body
raises. -/
theorem monitor_resource_stops_all_witness :
    (∀ e ∈ [(initState,
        ({ session_start := 1, sampler_out := [5]
           fenv := { point := 6, end_time := 2, tick := 3, new_prev := 4 } } : SessionEnv))],
       e.1.data.length ≤ e.2.sampler_out.length) ∧
    (monitor_resource_run
        [(initState,
          { session_start := 1, sampler_out := [5]
            fenv := { point := 6, end_time := 2, tick := 3, new_prev := 4 } })]
        true).1 =
      [stop (fetch (samplerAppend (start initState 1) [5])
              { point := 6, end_time := 2, tick := 3, new_prev := 4 }).1] :=
  ⟨by decide,
   (monitor_resource_stops_all
      [(initState,
        { session_start := 1, sampler_out := [5]
          fenv := { point := 6, end_time := 2, tick := 3, new_prev := 4 } })]
      true (by decide)).1⟩

/-- Embeds `ResourceMonitor.endless_repeat`, one loop iteration at a time under a
step budget (`fuel`), since the Python loop runs until killed or signalled.
`stopAt k` is whether `stop_queue.empty()` is false at the `k`-th check,
`failAt k` whether appending the `k`-th sample raises `BrokenPipeError` or
`ConnectionResetError` (swallowed), `sample k` the `k`-th function output.
`none` means the loop is still running when the budget runs out. -/
def endless_repeat (stopAt failAt : ℕ → Bool) (sample : ℕ → ℚ) :
    ℕ → ℕ → List ℚ → Option (List ℚ)
  | 0, _, _ => none
  | fuel + 1, k, buf =>
      if stopAt k then some buf
      else endless_repeat stopAt failAt sample fuel (k + 1)
             (if failAt k then buf else buf ++ [sample k])

/-- The loop from iteration `k`, stopping first at iteration `m`, returns the
buffer extended by exactly the successfully appended samples of `[k, m)`. -/
theorem endless_repeat_go (stopAt failAt : ℕ → Bool) (sample : ℕ → ℚ)
    (fuel k m : ℕ) (buf : List ℚ)
    (h1 : ∀ i, k ≤ i → i < m → stopAt i = false) (h2 : stopAt m = true)
    (h3 : k ≤ m) (h4 : m - k < fuel) :
    endless_repeat stopAt failAt sample fuel k buf =
      some (buf ++ ((List.range' k (m - k)).filter (fun i => !failAt i)).map sample) := by
  induction fuel generalizing k buf with
  | zero => omega
  | succ fuel ih =>
      unfold endless_repeat
      rcases eq_or_lt_of_le h3 with rfl | hkm
      · rw [h2]
        simp
      · rw [h1 k (le_refl k) hkm]
        simp only [Bool.false_eq_true, if_false]
        rw [ih (k + 1) _ (fun i hi₁ hi₂ => h1 i (by omega) hi₂) (by omega) (by omega)]
        have hrange : List.range' k (m - k) = k :: List.range' (k + 1) (m - (k + 1)) := by
          have : m - k = (m - (k + 1)) + 1 := by omega
          rw [this, List.range'_succ]
        rw [hrange]
        by_cases hfk : failAt k = true
        · simp [hfk]
        · simp only [Bool.not_eq_true] at hfk
          simp [hfk, List.append_assoc]

/-- C6 — The sampler loop checks the stop signal before each iteration and,
until it is observed, appends each successful sample and swallows append
failures; it returns exactly the samples of the iterations before the first
stop observation whose append succeeded, and it never terminates while the
stop signal is unobserved (in particular an append failure never ends it). -/
theorem endless_repeat_spec (stopAt failAt : ℕ → Bool) (sample : ℕ → ℚ)
    (fuel m : ℕ) (buf : List ℚ) :
    ((∀ i, i < m → stopAt i = false) → stopAt m = true → m < fuel →
      endless_repeat stopAt failAt sample fuel 0 buf =
        some (buf ++ ((List.range m).filter (fun i => !failAt i)).map sample)) ∧
    ((∀ i, i < fuel → stopAt i = false) →
      endless_repeat stopAt failAt sample fuel 0 buf = none) := by
  constructor
  · intro h1 h2 h3
    rw [List.range_eq_range']
    have := endless_repeat_go stopAt failAt sample fuel 0 m buf
      (fun i _ hi => h1 i hi) h2 (Nat.zero_le m) (by omega)
    simpa using this
  · intro hnone
    have : ∀ fuel k buf, (∀ i, i < k + fuel → stopAt i = false) →
        endless_repeat stopAt failAt sample fuel k buf = none := by
      intro fuel
      induction fuel with
      | zero => intro k buf _; rfl
      | succ fuel ih =>
          intro k buf hk
          unfold endless_repeat
          rw [hk k (by omega)]
          simp only [Bool.false_eq_true, if_false]
          exact ih (k + 1) _ (fun i hi => hk i (by omega))
    exact this fuel 0 buf (fun i hi => hnone i (by simpa using hi))

/-- Witness for C6: with the stop signal first observed at iteration 2 and
the append of iteration 1 failing, the loop returns only sample 0. -/
theorem endless_repeat_spec_witness :
    endless_repeat (fun i => decide (2 ≤ i)) (fun i => decide (i = 1))
        (fun i => (i : ℚ)) 5 0 [] =
      some ([] ++ ((List.range 2).filter
        (fun i => !(decide (i = 1)))).map (fun i => ((i : ℕ) : ℚ))) :=
  (endless_repeat_spec (fun i => decide (2 ≤ i)) (fun i => decide (i = 1))
      (fun i => (i : ℚ)) 5 2 []).1 (by decide) (by decide) (by decide)

/-- The `ResourceMonitor` subclasses the alias registry can name. -/
inductive MonitorKind where
  | MemoryMonitor
  | CPUMonitor
  | RSSMonitor
  | VMSMonitor
  | USSMonitor
  | GPUMonitor
  | GPUMemoryMonitor
  deriving Repr, DecidableEq

/-- The flattened `MONITOR_ALIASES` dictionary: alias string to monitor
class; `none` is Python's `KeyError`. -/
def MONITOR_ALIASES : String → Option MonitorKind
  | "mmonitor" => some .MemoryMonitor
  | "memory" => some .MemoryMonitor
  | "memorymonitor" => some .MemoryMonitor
  | "cmonitor" => some .CPUMonitor
  | "cpu" => some .CPUMonitor
  | "cpumonitor" => some .CPUMonitor
  | "rss" => some .RSSMonitor
  | "vms" => some .VMSMonitor
  | "uss" => some .USSMonitor
  | "gpu" => some .GPUMonitor
  | "gpu_memory" => some .GPUMemoryMonitor
  | _ => none

/-- One character of Python's `str.lower`: ASCII uppercase letters are
shifted to lowercase, everything else kept (the registry keys are ASCII, so
the ASCII fragment of `str.lower` is the relevant one). -/
def lowerChar (c : Char) : Char :=
  if c.toNat ≥ 65 ∧ c.toNat ≤ 90 then Char.ofNat (c.toNat + 32) else c

/-- Python's `res.lower()` on the ASCII fragment: lowercase every character. -/
def str_lower (s : String) : String :=
  ⟨s.data.map lowerChar⟩

/-- The registry access `MONITOR_ALIASES[res.lower()]` performed by
`monitor_resource` for a string selector. -/
def lookupAlias (s : String) : Option MonitorKind :=
  MONITOR_ALIASES (str_lower s)

/-- C7 — Alias lookup lowercases the selector before consulting the registry
(hence is case-insensitive), and the registry covers all documented short
names, each mapping to the corresponding monitor class. -/
theorem lookupAlias_covers (s : String) :
    lookupAlias s = MONITOR_ALIASES (str_lower s) ∧
    lookupAlias "cpu" = some .CPUMonitor ∧
    lookupAlias "gpu" = some .GPUMonitor ∧
    lookupAlias "rss" = some .RSSMonitor ∧
    lookupAlias "vms" = some .VMSMonitor ∧
    lookupAlias "uss" = some .USSMonitor ∧
    lookupAlias "memory" = some .MemoryMonitor ∧
    lookupAlias "gpu_memory" = some .GPUMemoryMonitor ∧
    lookupAlias "mmonitor" = some .MemoryMonitor ∧
    lookupAlias "cmonitor" = some .CPUMonitor ∧
    lookupAlias "memorymonitor" = some .MemoryMonitor ∧
    lookupAlias "cpumonitor" = some .CPUMonitor ∧
    lookupAlias "CPU" = some .CPUMonitor ∧
    lookupAlias "Memory" = some .MemoryMonitor ∧
    lookupAlias "GPU_Memory" = some .GPUMemoryMonitor :=
  ⟨rfl, by decide, by decide, by decide, by decide, by decide, by decide, by decide,
   by decide, by decide, by decide, by decide, by decide, by decide, by decide⟩

/-- Embeds `MemoryMonitor.get_usage`: `psutil.virtual_memory().used / (1024 ** 3)`,
as a function of the used-byte count the OS reports. -/
def MemoryMonitor.get_usage (usedBytes : ℚ) : ℚ :=
  usedBytes / 1024 ^ 3

/-- Display unit of `MemoryMonitor`. -/
def MemoryMonitor.UNIT : String := "Gb"

/-- Embeds `RSSMonitor.get_usage`: `process.memory_info().rss / (1024 ** 2)`, as a
function of the process's resident-set byte count. -/
def RSSMonitor.get_usage (rssBytes : ℚ) : ℚ :=
  rssBytes / 1024 ^ 2

/-- Display unit of `RSSMonitor`. -/
def RSSMonitor.UNIT : String := "Gb"

/-- Embeds `VMSMonitor.get_usage`: `process.memory_info().vms / (1024 ** 3)`. -/
def VMSMonitor.get_usage (vmsBytes : ℚ) : ℚ :=
  vmsBytes / 1024 ^ 3

/-- Embeds `USSMonitor.get_usage`: `process.memory_full_info().uss / (1024 ** 3)`. -/
def USSMonitor.get_usage (ussBytes : ℚ) : ℚ :=
  ussBytes / 1024 ^ 3

/-- C8 — When the OS reports a non-negative used-byte count, the
`MemoryMonitor` reading is non-negative and equals the byte count divided by
`1024³` (gigabytes). -/
theorem memory_get_usage_nonneg (b : ℚ) (h : 0 ≤ b) :
    0 ≤ MemoryMonitor.get_usage b ∧ MemoryMonitor.get_usage b = b / 1024 ^ 3 :=
  ⟨div_nonneg h (by norm_num), rfl⟩

/-- Witness for C8 at one gibibyte. -/
theorem memory_get_usage_nonneg_witness :
    (0:ℚ) ≤ 1073741824 ∧ 0 ≤ MemoryMonitor.get_usage 1073741824 ∧
    MemoryMonitor.get_usage 1073741824 = 1073741824 / 1024 ^ 3 :=
  ⟨by norm_num, memory_get_usage_nonneg 1073741824 (by norm_num)⟩

/-- C9 — `RSSMonitor.get_usage` divides the resident-set byte count by
`1024²` (a megabyte value) although its display unit is `'Gb'`, while
`MemoryMonitor`, `VMSMonitor` and `USSMonitor` all divide by `1024³`. -/
theorem rss_get_usage_megabytes (b : ℚ) :
    RSSMonitor.get_usage b = b / 1024 ^ 2 ∧
    RSSMonitor.UNIT = "Gb" ∧
    MemoryMonitor.get_usage b = b / 1024 ^ 3 ∧
    VMSMonitor.get_usage b = b / 1024 ^ 3 ∧
    USSMonitor.get_usage b = b / 1024 ^ 3 :=
  ⟨rfl, rfl, rfl, rfl, rfl⟩

/-- One element of the `resource` argument of `monitor_resource`: a string
alias or an already-constructed monitor instance. -/
inductive Selector where
  | alias (s : String)
  | inst (m : MonitorState)
  deriving Repr, DecidableEq

/-- A monitor as it appears in the `monitors` list: either freshly
constructed from the class the alias names, or the instance passed in. -/
inductive BuiltMonitor where
  | fresh (k : MonitorKind)
  | given (m : MonitorState)
  deriving Repr, DecidableEq

/-- The list-comprehension body of `monitor_resource`:
`MONITOR_ALIASES[res.lower()](...)` for a string (`none` is the `KeyError`
for an unknown alias), the selector itself otherwise. -/
def buildMonitor : Selector → Option BuiltMonitor
  | .alias s => (lookupAlias s).map BuiltMonitor.fresh
  | .inst m => some (.given m)

/-- The whole comprehension, in selector order. -/
def buildMonitors : List Selector → Option (List BuiltMonitor)
  | [] => some []
  | s :: rest =>
      match buildMonitor s, buildMonitors rest with
      | some m, some ms => some (m :: ms)
      | _, _ => none

/-- Embeds `resource = [resource] if not isinstance(resource, (tuple, list)) else
resource`: a single non-list selector is wrapped into a one-element list. -/
def normalizeResource : Selector ⊕ List Selector → List Selector
  | .inl s => [s]
  | .inr l => l

/-- Embeds `yield monitors[0] if len(monitors) == 1 else monitors`. -/
def yieldValue : List BuiltMonitor → BuiltMonitor ⊕ List BuiltMonitor
  | [m] => .inl m
  | ms => .inr ms

/-- Successful construction preserves length and is pointwise in selector
order. -/
theorem buildMonitors_length (sels : List Selector) (ms : List BuiltMonitor)
    (h : buildMonitors sels = some ms) :
    ms.length = sels.length ∧
    ∀ i (hi : i < sels.length) (hi' : i < ms.length),
      buildMonitor (sels.get ⟨i, hi⟩) = some (ms.get ⟨i, hi'⟩) := by
  induction sels generalizing ms with
  | nil =>
      unfold buildMonitors at h
      cases h
      exact ⟨rfl, fun i hi => absurd hi (Nat.not_lt_zero i)⟩
  | cons s rest ih =>
      unfold buildMonitors at h
      cases hb : buildMonitor s with
      | none => rw [hb] at h; exact absurd h (by simp)
      | some m =>
          cases hr : buildMonitors rest with
          | none => rw [hb, hr] at h; exact absurd h (by simp)
          | some ms' =>
              rw [hb, hr] at h
              cases h
              obtain ⟨hlen, hpt⟩ := ih ms' hr
              refine ⟨by simp [hlen], ?_⟩
              intro i hi hi'
              cases i with
              | zero => simpa using hb
              | succ j =>
                  simp only [List.length_cons, Nat.succ_lt_succ_iff] at hi hi'
                  simpa using hpt j hi hi'

/-- C10 — `monitor_resource` yields a bare monitor exactly when one selector
was given (a single non-list selector being wrapped into a one-element
list); otherwise it yields the monitor list itself, built in selector
order. -/
theorem monitor_resource_yield (r : Selector ⊕ List Selector)
    (ms : List BuiltMonitor)
    (h : buildMonitors (normalizeResource r) = some ms) :
    ((∃ m, yieldValue ms = .inl m) ↔ ms.length = 1) ∧
    (∀ m, yieldValue ms = .inl m → ms = [m]) ∧
    (ms.length ≠ 1 → yieldValue ms = .inr ms) ∧
    (∀ s, r = .inl s → ms.length = 1) ∧
    ms.length = (normalizeResource r).length ∧
    (∀ i (hi : i < (normalizeResource r).length) (hi' : i < ms.length),
      buildMonitor ((normalizeResource r).get ⟨i, hi⟩) = some (ms.get ⟨i, hi'⟩)) := by
  obtain ⟨hlen, hpt⟩ := buildMonitors_length (normalizeResource r) ms h
  refine ⟨?_, ?_, ?_, ?_, hlen, hpt⟩
  · constructor
    · rintro ⟨m, hm⟩
      match ms, hm with
      | [m], _ => rfl
    · intro h1
      match ms, h1 with
      | [m], _ => exact ⟨m, rfl⟩
  · intro m hm
    match ms, hm with
    | [m'], hm => cases hm; rfl
  · intro hne
    match ms, hne with
    | [], _ => rfl
    | m₁ :: m₂ :: rest, _ => rfl
    | [m], hne => exact absurd rfl hne
  · rintro s rfl
    simpa [normalizeResource] using hlen

/-- The monitors two concrete alias selectors build. -/
def c10Monitors : List BuiltMonitor :=
  [.fresh .CPUMonitor, .fresh .GPUMonitor]

/-- Witness for C10: with two selectors the session yields the list itself. -/
theorem monitor_resource_yield_witness :
    buildMonitors (normalizeResource
        (.inr [Selector.alias "cpu", Selector.alias "gpu"])) = some c10Monitors ∧
    yieldValue c10Monitors = .inr c10Monitors := by
  have h : buildMonitors (normalizeResource
      (.inr [Selector.alias "cpu", Selector.alias "gpu"])) = some c10Monitors := by
    decide
  exact ⟨h, (monitor_resource_yield _ c10Monitors h).2.2.1 (by decide)⟩

end Monitor
